import Mathlib

/-!
Shallow embedding of `src/bandcamp.py` (justinbarrick/bandcamp-downloader).

Python dictionaries parsed from JSON are modelled by `Bandcamp.Json`
(association lists with unique keys, as produced by `json.loads`),
machine integers by `Int`/`Nat`, fallible Python code by `Except String`
(the error string names the Python exception), and the filesystem,
network trace and console output by explicit state records threaded
through each modelled function.
-/

namespace Bandcamp

/-- A JSON value, the result of `json.loads` on a `data-blob` attribute. -/
inductive Json where
  | null
  | bool (b : Bool)
  | num (n : Int)
  | str (s : String)
  | arr (elems : List Json)
  | obj (fields : List (String × Json))
deriving Repr, Inhabited

/-- Decidable equality for `Json`, needed to evaluate concrete scenarios. -/
def Json.beq : Json → Json → Bool
  | .null, .null => true
  | .bool a, .bool b => a == b
  | .num a, .num b => a == b
  | .str a, .str b => a == b
  | .arr a, .arr b => beqArr a b
  | .obj a, .obj b => beqObj a b
  | _, _ => false
where
  beqArr : List Json → List Json → Bool
    | [], [] => true
    | x :: xs, y :: ys => beq x y && beqArr xs ys
    | _, _ => false
  beqObj : List (String × Json) → List (String × Json) → Bool
    | [], [] => true
    | (k, x) :: xs, (l, y) :: ys => k == l && beq x y && beqObj xs ys
    | _, _ => false

/-- Python truthiness of a JSON value (`bool(x)`). -/
def truthy : Json → Bool
  | .null => false
  | .bool b => b
  | .num n => decide (n ≠ 0)
  | .str s => decide (s ≠ "")
  | .arr l => !l.isEmpty
  | .obj l => !l.isEmpty

/-- Python `d.get(k, default)` on a value expected to be a dict: `none`
models the `AttributeError` raised when the value is not a dict. -/
def pyDictGet (j : Json) (k : String) (d : Json) : Option Json :=
  match j with
  | .obj fs => some ((fs.lookup k).getD d)
  | _ => none

/-- Python subscript `j[k]` with a string key: `KeyError` on a dict
missing the key, `TypeError` on a non-dict. -/
def pyIndex (j : Json) (k : String) : Except String Json :=
  match j with
  | .obj fs =>
    match fs.lookup k with
    | some v => .ok v
    | none => .error ("KeyError: " ++ k)
  | _ => .error "TypeError: not subscriptable"

/-- Python `int(x)` conversion; `none` models the raised `TypeError`
or `ValueError` on an unconvertible value. -/
def pyInt : Json → Option Int
  | .num n => some n
  | .bool b => some (if b then 1 else 0)
  | .str s => s.toInt?
  | _ => none

/-- A start tag as delivered by `HTMLParser.handle_starttag`: the tag
name and its attribute list. -/
structure StartTag where
  tag : String
  attrs : List (String × String)
deriving Repr, DecidableEq

/-- Python `dict(attrs).get(k)`: `dict` keeps the last occurrence of a
duplicate key, hence the lookup on the reversed list. -/
def attrsGet (attrs : List (String × String)) (k : String) : Option String :=
  attrs.reverse.lookup k

/-- One step of `BandcampBlobParser.handle_starttag` (src/bandcamp.py
lines 25-32) acting on the `__datablob` state. The `decode` parameter
models `json.loads` applied to the optional `data-blob` attribute value
(it raises on `None` and on malformed JSON, hence `Except`). -/
def handle_starttag (decode : Option String → Except String Json)
    (blob : Option Json) (t : StartTag) : Except String (Option Json) :=
  if t.tag = "div" ∧ attrsGet t.attrs "id" = some "pagedata" then
    (decode (attrsGet t.attrs "data-blob")).map some
  else
    .ok blob

/-- Feeding a document (its stream of start tags) through the parser
(`HTMLParser.feed` dispatching to `handle_starttag`). -/
def feedTags (decode : Option String → Except String Json) :
    List StartTag → Option Json → Except String (Option Json)
  | [], blob => .ok blob
  | t :: rest, blob =>
    match handle_starttag decode blob t with
    | .error e => .error e
    | .ok blob2 => feedTags decode rest blob2

/-- The `BandcampBlobParser.data` property (lines 21-23):
`self.__datablob or {}` under Python truthiness. -/
def dataProp (blob : Option Json) : Json :=
  match blob with
  | some j => if truthy j then j else .obj []
  | none => .obj []

/-- The `ParseUserInfo.fan_id` property (lines 35-37):
`int(self.data.get('fan_data', {}).get('fan_id', 0))`. -/
def fan_id (blob : Option Json) : Option Int :=
  (pyDictGet (dataProp blob) "fan_data" (.obj [])).bind fun fd =>
    (pyDictGet fd "fan_id" (.num 0)).bind pyInt

/-- The `ParseUserInfo.last_token` property (lines 39-41):
`self.data.get('collection_data', {}).get('last_token', '')`. -/
def last_token (blob : Option Json) : Option Json :=
  (pyDictGet (dataProp blob) "collection_data" (.obj [])).bind fun cd =>
    pyDictGet cd "last_token" (.str "")

/-- A purchase record (item) as handled by the program. `download_url`
is the nullable field populated by the join in `map_download_urls`;
`token` is the opaque pagination cursor carried by the item. -/
structure Album where
  band_name : String
  item_title : String
  item_id : Nat
  sale_item_type : String
  sale_item_id : Nat
  token : String
  download_url : Option String
deriving Repr, DecidableEq

/-- The storefront lookup key of an item:
`album['sale_item_type'] + str(album['sale_item_id'])` (line 127). -/
def url_key (a : Album) : String :=
  a.sale_item_type ++ toString a.sale_item_id

/-- The `map_download_urls` function (lines 125-129): the loop that sets
each item's `download_url` to `download_urls.get(url_key)`. The
`redownload_urls` dict is modelled as an association list with unique
keys. -/
def map_download_urls (download_urls : List (String × String)) :
    List Album → List Album
  | [] => []
  | a :: rest =>
    { a with download_url := download_urls.lookup (url_key a) } ::
      map_download_urls download_urls rest

/-- The specification's description of the item/download-url join
(spec section 4.4): a pure per-item lookup of `(sale_item_type,
sale_item_id)` in `redownload_urls`, absent keys giving a null
`download_url`. Stated from the spec's words, to be compared with
`map_download_urls`. -/
def download_url_join_spec (download_urls : List (String × String))
    (albums : List Album) : List Album :=
  albums.map fun a => { a with download_url := download_urls.lookup (url_key a) }

/-- One page of the collection-items endpoint's JSON response: its
`items` array and `redownload_urls` mapping. -/
structure Page where
  items : List Album
  redownload_urls : List (String × String)

/-- The items of a page after the download-url join
(line 148: `map_download_urls(response_json['redownload_urls'], items)`). -/
def pageItems (p : Page) : List Album :=
  map_download_urls p.redownload_urls p.items

/-- The `get_collection` function (lines 131-153). The POST to the
collection-items endpoint is modelled by the oracle `server`, a function
of the posted `fan_id` and `older_than_token`; the recursion is fuelled,
`none` meaning the recursion did not terminate within the given fuel. -/
def get_collection (server : Int → String → Page) (fanId : Int) :
    Nat → String → List Album → Option (List Album)
  | 0, _, _ => none
  | fuel + 1, lastToken, albums =>
    let resp := server fanId lastToken
    let items := map_download_urls resp.redownload_urls resp.items
    match items.getLast? with
    | none => some albums
    | some lastItem =>
      get_collection server fanId fuel lastItem.token (albums ++ items)

/-- The synthetic-page scenario of the claim: `serves server fanId t ps`
says that starting from cursor `t`, the server answers the chain of
requests with exactly the pages `ps`, each next cursor being the last
item's `token` of the current page, and the final page joining to an
empty item list. -/
def serves (server : Int → String → Page) (fanId : Int) :
    String → List Page → Prop
  | _, [] => False
  | t, p :: ps =>
    server fanId t = p ∧
      match (pageItems p).getLast? with
      | none => ps = []
      | some lastItem => serves server fanId lastItem.token ps

/-- A raw browser cookie record, one element of the list handed to
`parse_cookie_list` (selenium's `get_cookies()` output or the persisted
`.cookies` JSON): `expiry` is epoch seconds or null. -/
structure RawCookie where
  name : String
  value : String
  domain : String
  path : String
  expiry : Option Int
deriving Repr, DecidableEq

/-- An entry of the built cookie store
(`requests.cookies.RequestsCookieJar`). -/
structure CookieEntry where
  name : String
  value : String
  domain : String
  path : String
  expires : Option Int
deriving Repr, DecidableEq

/-- The (name, domain, path) key under which the jar stores a cookie. -/
def cookieKey (e : CookieEntry) : String × String × String :=
  (e.name, e.domain, e.path)

/-- The jar entry built from a raw record by `cookie_jar.set(name,
value, domain=..., path=..., expires=...)` (lines 167-168). -/
def toEntry (c : RawCookie) : CookieEntry :=
  { name := c.name, value := c.value, domain := c.domain, path := c.path,
    expires := c.expiry }

/-- Model of `RequestsCookieJar.set`: inserting a cookie replaces any existing
cookie with the same (name, domain, path) key. -/
def jarSet (jar : List CookieEntry) (e : CookieEntry) : List CookieEntry :=
  (jar.filter fun x => decide (cookieKey x ≠ cookieKey e)) ++ [e]

/-- The skip test of line 164, `if cookie['expiry'] and
cookie['expiry'] < now`: Python truthiness makes both a null and a zero
expiry fail the first conjunct. -/
def expirySkip (now : Int) (c : RawCookie) : Bool :=
  match c.expiry with
  | some e => decide (e ≠ 0) && decide (e < now)
  | none => false

/-- The `parse_cookie_list` function (lines 158-170), with the current
time `now` passed explicitly. -/
def parse_cookie_list (now : Int) (cookies : List RawCookie) :
    List CookieEntry :=
  cookies.foldl
    (fun jar c => if expirySkip now c then jar else jarSet jar (toEntry c)) []

/-- Model of `RequestsCookieJar.get(name)`: the value of any cookie with that
name, or `None`. -/
def jarGet (jar : List CookieEntry) (n : String) : Option String :=
  (jar.find? fun e => decide (e.name = n)).map (fun e => e.value)

/-- A downloaded byte stream: either a valid zip archive with named
entries, or bytes that `zipfile.ZipFile` rejects with `BadZipFile`
(e.g. a raw audio file). -/
inductive Bytes where
  | archive (entries : List (String × String))
  | raw (data : String)
deriving Repr, DecidableEq

/-- The filesystem: explicitly created directories and regular files
with contents. A directory also exists once a file lives under it. -/
structure FS where
  dirs : List String
  files : List (String × Bytes)
deriving Repr, DecidableEq

/-- Path concatenation, `os.path.join(a, b)` for relative components. -/
def pjoin (a b : String) : String :=
  a ++ "/" ++ b

/-- Whether file path `f` lies strictly under directory `d`. -/
def pathUnder (d f : String) : Bool :=
  (d ++ "/").data.isPrefixOf f.data

/-- Model of `os.path.exists` on a directory path: explicitly created, or
witnessed by a file underneath it. -/
def dirExists (fs : FS) (d : String) : Bool :=
  fs.dirs.contains d || fs.files.any fun f => pathUnder d f.1

/-- Model of `os.path.exists` on a regular-file path. -/
def fileExists (fs : FS) (p : String) : Bool :=
  fs.files.any fun f => decide (f.1 = p)

/-- Contents of the file at `p`, if any. -/
def fsLookup (fs : FS) (p : String) : Option Bytes :=
  fs.files.lookup p

/-- Creating or overwriting the file at `p` (`open(p, 'wb')`,
`extractall` writing an entry, or an `os.rename` destination). -/
def fsInsert (fs : FS) (p : String) (b : Bytes) : FS :=
  { fs with files := (fs.files.filter fun f => decide (f.1 ≠ p)) ++ [(p, b)] }

/-- Removing the file at `p` (the source side of `os.rename`). -/
def fsRemove (fs : FS) (p : String) : FS :=
  { fs with files := fs.files.filter fun f => decide (f.1 ≠ p) }

/-- The album's directory path,
`os.path.join(base_dir, band_name, item_title)` (line 76). -/
def download_dir_path (baseDir : String) (a : Album) : String :=
  pjoin (pjoin baseDir a.band_name) a.item_title

/-- The side effect of the `download_dir` property (lines 74-81):
`os.makedirs` when the directory does not exist yet. -/
def ensure_download_dir (baseDir : String) (a : Album) (fs : FS) : FS :=
  if dirExists fs (download_dir_path baseDir a) then fs
  else { fs with dirs := fs.dirs ++ [download_dir_path baseDir a] }

/-- The `download_path` property (lines 83-85):
`download_dir/{item_id}.zip`. -/
def download_path (baseDir : String) (a : Album) : String :=
  pjoin (download_dir_path baseDir a) (toString a.item_id ++ ".zip")

/-- The `lock_path` property (lines 87-89):
`download_dir/.{item_id}.lock`. -/
def lock_path (baseDir : String) (a : Album) : String :=
  pjoin (download_dir_path baseDir a) ("." ++ toString a.item_id ++ ".lock")

/-- The destination of the `BadZipFile` fallback rename (line 104):
`download_dir/{item_title}.mp3`. -/
def mp3_path (baseDir : String) (a : Album) : String :=
  pjoin (download_dir_path baseDir a) (a.item_title ++ ".mp3")

/-- The `extract` method (lines 99-104): open the downloaded file as a
zip and extract all entries into the album directory; on `BadZipFile`,
rename it to `{item_title}.mp3` instead. A missing file raises
`FileNotFoundError` (uncaught in the source). The initial
`ensure_download_dir` models the `download_path`/`download_dir`
property accesses. -/
def extract (baseDir : String) (a : Album) (fs0 : FS) : Except String FS :=
  let fs := ensure_download_dir baseDir a fs0
  match fsLookup fs (download_path baseDir a) with
  | none => .error "FileNotFoundError"
  | some (.archive entries) =>
    .ok (entries.foldl
      (fun acc e => fsInsert acc (pjoin (download_dir_path baseDir a) e.1) (.raw e.2))
      fs)
  | some (.raw d) =>
    .ok (fsInsert (fsRemove fs (download_path baseDir a)) (mp3_path baseDir a) (.raw d))

/-- Program state threaded through the per-item lifecycle: the
filesystem, the trace of URLs requested over the HTTP session, and the
console output. -/
structure World where
  fs : FS
  net : List String
  out : List String
deriving Repr, DecidableEq

/-- The `download` method (lines 106-110). `open(download_path, 'wb')`
creates (truncates) the file before the request is issued; the request
itself is modelled by the oracle `fileServer` and traced in `net`.
A non-string URL (in particular `None`, when no digital item set it)
makes `session.get` raise before any network traffic. -/
def download (fileServer : String → Except String Bytes) (baseDir : String)
    (a : Album) (durl : Option Json) (w : World) : Except String Unit × World :=
  let fs1 := ensure_download_dir baseDir a w.fs
  let fs2 := fsInsert fs1 (download_path baseDir a) (.raw "")
  let w1 : World := { w with fs := fs2 }
  match durl with
  | some (.str u) =>
    let w2 : World := { w1 with net := w1.net ++ [u] }
    match fileServer u with
    | .error e => (.error e, w2)
    | .ok b => (.ok (), { w2 with fs := fsInsert w2.fs (download_path baseDir a) b })
  | _ => (.error "TypeError: invalid url", w1)

/-- The `lock` method (lines 95-97): create the empty lock marker file
(the `lock_path` access re-runs the `download_dir` property). -/
def lock (baseDir : String) (a : Album) (fs : FS) : FS :=
  fsInsert (ensure_download_dir baseDir a fs) (lock_path baseDir a) (.raw "")

/-- The skip notice printed on line 116. -/
def skipMsg (a : Album) : String :=
  "Skipping already fetched album, " ++ a.band_name ++ " - " ++ a.item_title

/-- The fetch notice printed on line 119. -/
def fetchMsg (a : Album) : String :=
  "Fetching album, " ++ a.band_name ++ " - " ++ a.item_title

/-- The `fetch_album` method (lines 112-123): skip if the lock marker
exists, otherwise download, extract and create the lock marker. `durl`
is the `download_url` state left by `parse_album`. -/
def fetch_album (fileServer : String → Except String Bytes) (baseDir : String)
    (a : Album) (durl : Option Json) (w : World) : Except String Unit × World :=
  let fs1 := ensure_download_dir baseDir a w.fs
  let w1 : World := { w with fs := fs1 }
  if fileExists fs1 (lock_path baseDir a) then
    (.ok (), { w1 with out := w1.out ++ [skipMsg a] })
  else
    let w2 : World := { w1 with out := w1.out ++ [fetchMsg a] }
    match download fileServer baseDir a durl w2 with
    | (.error e, w3) => (.error e, w3)
    | (.ok _, w3) =>
      match extract baseDir a w3.fs with
      | .error e => (.error e, w3)
      | .ok fs4 => (.ok (), { w3 with fs := lock baseDir a fs4 })

/-- The chain `download['downloads']['mp3-v0']['url']` of line 70. -/
def mp3v0_url (d : Json) : Except String Json :=
  match pyIndex d "downloads" with
  | .error e => .error e
  | .ok dl =>
    match pyIndex dl "mp3-v0" with
    | .error e => .error e
    | .ok m => pyIndex m "url"

/-- Python iteration over a JSON value (`for download in x`): arrays
yield elements, dicts yield their keys, strings yield characters, the
rest raise `TypeError`. -/
def iterElems : Json → Except String (List Json)
  | .arr l => .ok l
  | .obj fs => .ok (fs.map fun f => Json.str f.1)
  | .str s => .ok (s.data.map fun ch => Json.str (String.singleton ch))
  | _ => .error "TypeError: not iterable"

/-- The loop of lines 69-70: each iteration overwrites
`__download_url`, so the last digital item wins. -/
def digital_items_fold : List Json → Option Json → Except String (Option Json)
  | [], acc => .ok acc
  | d :: rest, _ =>
    match mp3v0_url d with
    | .error e => .error e
    | .ok u => digital_items_fold rest (some u)

/-- The `parse_album` method (lines 65-72): GET the album page (traced
in `net`, the page modelled by the oracle `pageServer`), feed it to the
blob parser, then read `self.data['digital_items']` and iterate. The
result is the final `download_url` state. -/
def parse_album (pageServer : String → Except String (List StartTag))
    (decode : Option String → Except String Json) (a : Album) (w : World) :
    Except String (Option Json) × World :=
  match a.download_url with
  | none => (.error "TypeError: invalid url", w)
  | some u =>
    let w1 : World := { w with net := w.net ++ [u] }
    match pageServer u with
    | .error e => (.error e, w1)
    | .ok tags =>
      match feedTags decode tags none with
      | .error e => (.error e, w1)
      | .ok blob =>
        match pyIndex (dataProp blob) "digital_items" with
        | .error e => (.error e, w1)
        | .ok items =>
          match iterElems items with
          | .error e => (.error e, w1)
          | .ok ds =>
            match digital_items_fold ds none with
            | .error e => (.error e, w1)
            | .ok durl => (.ok durl, w1)

/-- One iteration of the `__main__` loop (lines 231-234):
`parse_album()` then `fetch_album()` for a single item. -/
def process_item (pageServer : String → Except String (List StartTag))
    (fileServer : String → Except String Bytes)
    (decode : Option String → Except String Json)
    (baseDir : String) (a : Album) (w : World) : Except String Unit × World :=
  match parse_album pageServer decode a w with
  | (.error e, w1) => (.error e, w1)
  | (.ok durl, w1) => fetch_album fileServer baseDir a durl w1

/-- State of the `bandcamp_login` flow: the persisted `.cookies` file
and the trace of browser-resource events (acquire/quit). -/
structure LoginWorld where
  cookieFile : Option (List RawCookie)
  browserEvents : List String
deriving Repr, DecidableEq

/-- Python truthiness of `RequestsCookieJar.get`'s result: `None` and
the empty string are falsy. -/
def truthyStrOpt : Option String → Bool
  | none => false
  | some s => decide (s ≠ "")

/-- The cached-session check of lines 173-177: the jar built from the
persisted `.cookies` file, provided
`cookie_jar.get('client_id') and cookie_jar.get('identity')` is truthy. -/
def cached_jar (now : Int) (w : LoginWorld) : Option (List CookieEntry) :=
  match w.cookieFile with
  | some raws =>
    let jar := parse_cookie_list now raws
    if truthyStrOpt (jarGet jar "client_id") && truthyStrOpt (jarGet jar "identity")
    then some jar else none
  | none => none

/-- The `bandcamp_login` function (lines 172-208). The whole browser
interaction of the `try` block (navigate, two 30-second waits, form
fill, `get_cookies()`) is the oracle `oracle`; a wait timeout is its
`error` case. The `finally` clause quits the browser on both outcomes;
on success the raw cookie list overwrites the `.cookies` file and the
jar built from it is returned. -/
def bandcamp_login (now : Int) (oracle : Except String (List RawCookie))
    (w : LoginWorld) : Except String (List CookieEntry) × LoginWorld :=
  match cached_jar now w with
  | some jar => (.ok jar, w)
  | none =>
    let w1 : LoginWorld := { w with browserEvents := w.browserEvents ++ ["acquire"] }
    match oracle with
    | .error e => (.error e, { w1 with browserEvents := w1.browserEvents ++ ["quit"] })
    | .ok cookies =>
      let w2 : LoginWorld := { w1 with browserEvents := w1.browserEvents ++ ["quit"] }
      (.ok (parse_cookie_list now cookies), { w2 with cookieFile := some cookies })

/-! Helper lemmas about strings, paths and the filesystem model. -/

theorem str_append_ne {u v : String} (x y : String) (hu : u.data ≠ [])
    (hv : v.data ≠ []) (h : u.data.getLast? ≠ v.data.getLast?) :
    x ++ u ≠ y ++ v := by
  intro heq
  have hd : (x ++ u).data = (y ++ v).data := by rw [heq]
  rw [String.data_append, String.data_append] at hd
  have h2 := congrArg List.getLast? hd
  rw [List.getLast?_append_of_ne_nil _ hu, List.getLast?_append_of_ne_nil _ hv] at h2
  exact h h2

theorem download_path_ne_lock_path (baseDir : String) (a : Album) :
    download_path baseDir a ≠ lock_path baseDir a := by
  unfold download_path lock_path pjoin
  rw [← String.append_assoc, ← String.append_assoc, ← String.append_assoc]
  exact str_append_ne _ _ (by decide) (by decide) (by decide)

theorem mp3_path_ne_download_path (baseDir : String) (a : Album) :
    mp3_path baseDir a ≠ download_path baseDir a := by
  unfold download_path mp3_path pjoin
  rw [← String.append_assoc, ← String.append_assoc]
  exact str_append_ne _ _ (by decide) (by decide) (by decide)

theorem pjoin_right_inj {d x y : String} (h : pjoin d x = pjoin d y) : x = y := by
  unfold pjoin at h
  have hd := congrArg String.data h
  rw [String.data_append, String.data_append, String.data_append,
    String.data_append, List.append_assoc, List.append_assoc] at hd
  exact String.ext (List.append_cancel_left (List.append_cancel_left hd))

theorem pathUnder_pjoin (d n : String) : pathUnder d (pjoin d n) = true := by
  have : pjoin d n = (d ++ "/") ++ n := rfl
  rw [pathUnder, this, String.data_append]
  simp

theorem ensure_files (baseDir : String) (a : Album) (fs : FS) :
    (ensure_download_dir baseDir a fs).files = fs.files := by
  unfold ensure_download_dir
  split <;> rfl

theorem fileExists_of_fsLookup {fs : FS} {p : String} {c : Bytes}
    (h : fsLookup fs p = some c) : fileExists fs p = true := by
  unfold fsLookup at h
  obtain ⟨l₁, l₂, hl, -⟩ := List.lookup_eq_some_iff.mp h
  unfold fileExists
  rw [hl]
  simp

theorem dirExists_of_file_under {fs : FS} {baseDir : String} {a : Album} {n : String}
    (h : fileExists fs (pjoin (download_dir_path baseDir a) n) = true) :
    dirExists fs (download_dir_path baseDir a) = true := by
  unfold fileExists at h
  rw [List.any_eq_true] at h
  obtain ⟨f, hf, hfp⟩ := h
  unfold dirExists
  rw [Bool.or_eq_true, List.any_eq_true]
  refine Or.inr ⟨f, hf, ?_⟩
  rw [decide_eq_true_eq] at hfp
  rw [hfp]
  exact pathUnder_pjoin _ _

theorem ensure_eq_of_file_under {fs : FS} {baseDir : String} {a : Album} {n : String}
    (h : fileExists fs (pjoin (download_dir_path baseDir a) n) = true) :
    ensure_download_dir baseDir a fs = fs := by
  unfold ensure_download_dir
  rw [dirExists_of_file_under h]
  rfl

theorem fileExists_ensure (baseDir : String) (a : Album) (fs : FS) (q : String) :
    fileExists (ensure_download_dir baseDir a fs) q = fileExists fs q := by
  unfold fileExists
  rw [ensure_files]

theorem fsLookup_ensure (baseDir : String) (a : Album) (fs : FS) (q : String) :
    fsLookup (ensure_download_dir baseDir a fs) q = fsLookup fs q := by
  unfold fsLookup
  rw [ensure_files]

theorem lookup_filter_ne {β : Type} (l : List (String × β)) (p q : String)
    (h : q ≠ p) :
    ((l.filter fun f => decide (f.1 ≠ p)).lookup q) = l.lookup q := by
  induction l with
  | nil => rfl
  | cons f rest ih =>
    obtain ⟨k, v⟩ := f
    by_cases hk : k = p
    · subst hk
      rw [List.filter_cons, if_neg (by simp), List.lookup_cons]
      have : (q == k) = false := by simp [h]
      rw [this]
      exact ih
    · rw [List.filter_cons, if_pos (by simp [hk]), List.lookup_cons, List.lookup_cons]
      by_cases hq : q = k
      · simp [hq]
      · have : (q == k) = false := by simp [hq]
        rw [this]
        exact ih

theorem fsLookup_fsInsert_self (fs : FS) (p : String) (b : Bytes) :
    fsLookup (fsInsert fs p b) p = some b := by
  unfold fsLookup fsInsert
  rw [List.lookup_append]
  have h1 : ((fs.files.filter fun f => decide (f.1 ≠ p)).lookup p) = none := by
    rw [List.lookup_eq_none_iff]
    intro x hx
    rw [List.mem_filter, decide_eq_true_eq] at hx
    simp [Ne.symm hx.2]
  rw [h1]
  simp

theorem fsLookup_fsInsert_ne (fs : FS) (p q : String) (b : Bytes) (h : q ≠ p) :
    fsLookup (fsInsert fs p b) q = fsLookup fs q := by
  unfold fsLookup fsInsert
  rw [List.lookup_append]
  have h1 : (([(p, b)] : List (String × Bytes)).lookup q) = none := by
    rw [List.lookup_eq_none_iff]
    intro x hx
    rw [List.mem_singleton] at hx
    subst hx
    simp [h]
  rw [h1, lookup_filter_ne _ _ _ h]
  cases fs.files.lookup q <;> rfl

theorem fsLookup_fsRemove_self (fs : FS) (p : String) :
    fsLookup (fsRemove fs p) p = none := by
  unfold fsLookup fsRemove
  rw [List.lookup_eq_none_iff]
  intro x hx
  rw [List.mem_filter, decide_eq_true_eq] at hx
  simp [Ne.symm hx.2]

theorem fsLookup_fsRemove_ne (fs : FS) (p q : String) (h : q ≠ p) :
    fsLookup (fsRemove fs p) q = fsLookup fs q := by
  unfold fsLookup fsRemove
  exact lookup_filter_ne _ _ _ h

theorem fileExists_fsInsert_self (fs : FS) (p : String) (b : Bytes) :
    fileExists (fsInsert fs p b) p = true := by
  unfold fileExists fsInsert
  simp

theorem fileExists_fsInsert_ne (fs : FS) (p q : String) (b : Bytes) (h : q ≠ p) :
    fileExists (fsInsert fs p b) q = fileExists fs q := by
  rw [Bool.eq_iff_iff]
  unfold fileExists fsInsert
  simp only [List.any_append, List.any_eq_true, List.mem_filter, Bool.or_eq_true,
    List.any_cons, List.any_nil, Bool.or_false, decide_eq_true_eq]
  constructor
  · rintro (⟨x, ⟨hx, _⟩, hq⟩ | hpq)
    · exact ⟨x, hx, hq⟩
    · exact absurd hpq.symm h
  · rintro ⟨x, hx, hq⟩
    exact Or.inl ⟨x, ⟨hx, by simp [hq, h]⟩, hq⟩

/-- A start tag that is not the pagedata div leaves the parser state
unchanged, so a whole document without one preserves it. -/
theorem feed_no_pagedata (decode : Option String → Except String Json)
    (tags : List StartTag)
    (h : ∀ t ∈ tags, ¬(t.tag = "div" ∧ attrsGet t.attrs "id" = some "pagedata")) :
    ∀ blob, feedTags decode tags blob = .ok blob := by
  induction tags with
  | nil => intro blob; rfl
  | cons t rest ih =>
    intro blob
    have ht := h t (List.mem_cons_self t rest)
    unfold feedTags handle_starttag
    rw [if_neg ht]
    exact ih (fun x hx => h x (List.mem_cons_of_mem t hx)) blob

/-! Helper lemmas about the cookie-jar fold of `parse_cookie_list`. -/

/-- One iteration of the loop body of `parse_cookie_list`. -/
def cookieStep (now : Int) (jar : List CookieEntry) (c : RawCookie) :
    List CookieEntry :=
  if expirySkip now c then jar else jarSet jar (toEntry c)

theorem parse_cookie_list_eq_foldl (now : Int) (cookies : List RawCookie) :
    parse_cookie_list now cookies = cookies.foldl (cookieStep now) [] := rfl

theorem mem_jarSet {jar : List CookieEntry} {e x : CookieEntry}
    (h : x ∈ jarSet jar e) : x ∈ jar ∨ x = e := by
  unfold jarSet at h
  rw [List.mem_append, List.mem_filter, List.mem_singleton] at h
  rcases h with ⟨h1, -⟩ | h2
  · exact Or.inl h1
  · exact Or.inr h2

theorem cookie_fold_provenance (now : Int) :
    ∀ (cs : List RawCookie) (acc : List CookieEntry) (e : CookieEntry),
      e ∈ cs.foldl (cookieStep now) acc →
      e ∈ acc ∨ ∃ c ∈ cs, expirySkip now c = false ∧ e = toEntry c := by
  intro cs
  induction cs with
  | nil => intro acc e h; exact Or.inl h
  | cons c rest ih =>
    intro acc e h
    rw [List.foldl_cons] at h
    rcases ih (cookieStep now acc c) e h with h1 | ⟨c2, hc2, hs, he⟩
    · unfold cookieStep at h1
      by_cases hk : expirySkip now c
      · rw [if_pos hk] at h1
        exact Or.inl h1
      · rw [if_neg hk] at h1
        rcases mem_jarSet h1 with h2 | h2
        · exact Or.inl h2
        · exact Or.inr ⟨c, List.mem_cons_self c rest,
            ⟨Bool.eq_false_iff.mpr hk, h2⟩⟩
    · exact Or.inr ⟨c2, List.mem_cons_of_mem c hc2, hs, he⟩

theorem cookie_fold_key_stable (now : Int) :
    ∀ (cs : List RawCookie) (acc : List CookieEntry) (e : CookieEntry),
      e ∈ acc →
      ∃ e2 ∈ cs.foldl (cookieStep now) acc, cookieKey e2 = cookieKey e := by
  intro cs
  induction cs with
  | nil => intro acc e h; exact ⟨e, h, rfl⟩
  | cons c rest ih =>
    intro acc e h
    rw [List.foldl_cons]
    unfold cookieStep
    by_cases hk : expirySkip now c
    · rw [if_pos hk]
      exact ih acc e h
    · rw [if_neg hk]
      by_cases hkey : cookieKey e = cookieKey (toEntry c)
      · have hmem : toEntry c ∈ jarSet acc (toEntry c) := by
          unfold jarSet
          rw [List.mem_append, List.mem_singleton]
          exact Or.inr rfl
        obtain ⟨e2, he2, hke⟩ := ih (jarSet acc (toEntry c)) (toEntry c) hmem
        exact ⟨e2, he2, by rw [hke, hkey]⟩
      · have hmem : e ∈ jarSet acc (toEntry c) := by
          unfold jarSet
          rw [List.mem_append, List.mem_filter]
          exact Or.inl ⟨h, by simpa using hkey⟩
        exact ih (jarSet acc (toEntry c)) e hmem

theorem cookie_fold_survives (now : Int) :
    ∀ (cs : List RawCookie) (acc : List CookieEntry) (e : CookieEntry),
      e ∈ acc →
      (∀ c ∈ cs, expirySkip now c = false → cookieKey (toEntry c) ≠ cookieKey e) →
      e ∈ cs.foldl (cookieStep now) acc := by
  intro cs
  induction cs with
  | nil => intro acc e h _; exact h
  | cons c rest ih =>
    intro acc e h hkeys
    rw [List.foldl_cons]
    unfold cookieStep
    by_cases hk : expirySkip now c
    · rw [if_pos hk]
      exact ih acc e h (fun x hx => hkeys x (List.mem_cons_of_mem c hx))
    · rw [if_neg hk]
      have hne := hkeys c (List.mem_cons_self c rest) (Bool.eq_false_iff.mpr hk)
      have hmem : e ∈ jarSet acc (toEntry c) := by
        unfold jarSet
        rw [List.mem_append, List.mem_filter]
        exact Or.inl ⟨h, by simpa using fun hh => hne hh.symm⟩
      exact ih (jarSet acc (toEntry c)) e hmem
        (fun x hx => hkeys x (List.mem_cons_of_mem c hx))

/-! Helper lemmas about the `extractall` fold inside `extract`. -/

/-- Writing one archive entry into the album directory. -/
def entryWrite (dir : String) (acc : FS) (e : String × String) : FS :=
  fsInsert acc (pjoin dir e.1) (.raw e.2)

theorem extract_fold_lookup_other (dir : String) :
    ∀ (entries : List (String × String)) (fs : FS) (q : String),
      (∀ e ∈ entries, pjoin dir e.1 ≠ q) →
      fsLookup (entries.foldl (entryWrite dir) fs) q = fsLookup fs q := by
  intro entries
  induction entries with
  | nil => intro fs q _; rfl
  | cons e rest ih =>
    intro fs q h
    rw [List.foldl_cons]
    rw [ih (entryWrite dir fs e) q (fun x hx => h x (List.mem_cons_of_mem e hx))]
    exact fsLookup_fsInsert_ne fs (pjoin dir e.1) q (.raw e.2)
      (fun hh => h e (List.mem_cons_self e rest) hh.symm)

theorem extract_fold_keeps_entry (dir : String) :
    ∀ (entries : List (String × String)) (fs : FS) (n : String) (b : String),
      fsLookup fs (pjoin dir n) = some (.raw b) →
      ∃ c, fsLookup (entries.foldl (entryWrite dir) fs) (pjoin dir n) =
          some (.raw c) ∧ ((n, c) ∈ entries ∨ c = b) := by
  intro entries
  induction entries with
  | nil => intro fs n b h; exact ⟨b, h, Or.inr rfl⟩
  | cons e rest ih =>
    intro fs n b h
    rw [List.foldl_cons]
    by_cases hn : e.1 = n
    · have hl : fsLookup (entryWrite dir fs e) (pjoin dir n) = some (.raw e.2) := by
        unfold entryWrite
        rw [hn]
        exact fsLookup_fsInsert_self fs (pjoin dir n) (.raw e.2)
      obtain ⟨c, hc, hm⟩ := ih (entryWrite dir fs e) n e.2 hl
      refine ⟨c, hc, Or.inl ?_⟩
      rcases hm with hm | hm
      · exact List.mem_cons_of_mem e hm
      · rw [List.mem_cons]
        left
        rw [hm, ← hn]
    · have hl : fsLookup (entryWrite dir fs e) (pjoin dir n) =
          fsLookup fs (pjoin dir n) := by
        unfold entryWrite
        exact fsLookup_fsInsert_ne fs (pjoin dir e.1) (pjoin dir n) (.raw e.2)
          (fun hh => hn (pjoin_right_inj hh).symm)
      obtain ⟨c, hc, hm⟩ := ih (entryWrite dir fs e) n b (hl.trans h)
      exact ⟨c, hc, by
        rcases hm with hm | hm
        · exact Or.inl (List.mem_cons_of_mem e hm)
        · exact Or.inr hm⟩

theorem extract_fold_writes_mem (dir : String) (entries : List (String × String))
    (fs : FS) {nb : String × String} (h : nb ∈ entries) :
    ∃ c, fsLookup (entries.foldl (entryWrite dir) fs) (pjoin dir nb.1) =
        some (.raw c) ∧ (nb.1, c) ∈ entries := by
  obtain ⟨l₁, l₂, rfl⟩ := List.append_of_mem h
  rw [List.foldl_append, List.foldl_cons]
  have hl : fsLookup (entryWrite dir (l₁.foldl (entryWrite dir) fs) nb)
      (pjoin dir nb.1) = some (.raw nb.2) := by
    unfold entryWrite
    exact fsLookup_fsInsert_self _ _ _
  obtain ⟨c, hc, hm⟩ :=
    extract_fold_keeps_entry dir l₂ (entryWrite dir (l₁.foldl (entryWrite dir) fs) nb)
      nb.1 nb.2 hl
  refine ⟨c, hc, ?_⟩
  rcases hm with hm | hm
  · exact List.mem_append_right l₁ (List.mem_cons_of_mem nb hm)
  · exact List.mem_append_right l₁ (by rw [List.mem_cons]; left; rw [hm])

/-! Concrete scenario data used to evaluate the claims on explicit inputs. -/

/-- A sample item, resolved to band `B`, title `T`, id 1. -/
def exAlbum : Album :=
  { band_name := "B", item_title := "T", item_id := 1, sale_item_type := "a",
    sale_item_id := 7, token := "tk", download_url := some "u" }

/-- A world in which `exAlbum`'s lock marker already exists. -/
def exLockedWorld : World :=
  { fs := { dirs := [], files := [(lock_path "Music" exAlbum, .raw "")] },
    net := [], out := [] }

/-- A page server answering every URL with a pagedata document. -/
def exPageServer : String → Except String (List StartTag) :=
  fun _ => .ok [{ tag := "div", attrs := [("id", "pagedata"), ("data-blob", "x")] }]

/-- A file server answering every URL with raw (non-archive) bytes. -/
def exFileServer : String → Except String Bytes :=
  fun _ => .ok (.raw "audio")

/-- A JSON decoder giving a payload with an empty `digital_items` list. -/
def exDecode : Option String → Except String Json :=
  fun _ => .ok (.obj [("digital_items", .arr [])])

/-- A filesystem whose downloaded zip is an archive containing an entry
named exactly like the zip file itself. -/
def exZipFs : FS :=
  { dirs := [],
    files := [(download_path "Music" exAlbum, .archive [("1.zip", "junk")])] }

/-- A filesystem whose downloaded file is raw audio bytes. -/
def exRawFs : FS :=
  { dirs := [], files := [(download_path "Music" exAlbum, .raw "audio")] }

/-- A raw cookie whose expiry is set to epoch 0. -/
def exCookieZero : RawCookie :=
  { name := "a", value := "v", domain := "d", path := "p", expiry := some 0 }

/-- Persisted cookie records holding a `client_id` cookie with an empty
value and an `identity` cookie. -/
def exCookieRecords : List RawCookie :=
  [{ name := "client_id", value := "", domain := "bandcamp.com", path := "/",
     expiry := none },
   { name := "identity", value := "x", domain := "bandcamp.com", path := "/",
     expiry := none }]

/-- A login world whose auth cache holds `exCookieRecords`. -/
def exLoginWorld : LoginWorld :=
  { cookieFile := some exCookieRecords, browserEvents := [] }

/-- A login world with no persisted auth cache. -/
def exNoCacheWorld : LoginWorld :=
  { cookieFile := none, browserEvents := [] }

/-- First item of the synthetic pagination scenario (token `t1`). -/
def exItem1 : Album :=
  { band_name := "B1", item_title := "I1", item_id := 1, sale_item_type := "a",
    sale_item_id := 1, token := "t1", download_url := none }

/-- Second item of the synthetic pagination scenario (token `t2`). -/
def exItem2 : Album :=
  { band_name := "B2", item_title := "I2", item_id := 2, sale_item_type := "a",
    sale_item_id := 2, token := "t2", download_url := none }

/-- First synthetic page: two items, a redownload URL for the first. -/
def exPage1 : Page :=
  { items := [exItem1, exItem2], redownload_urls := [("a1", "u1")] }

/-- Second synthetic page: empty, signalling exhaustion. -/
def exPage2 : Page :=
  { items := [], redownload_urls := [] }

/-- A collection server serving `exPage1` at the seed cursor and the
empty `exPage2` at every other cursor. -/
def exServer : Int → String → Page :=
  fun _ t => if t = "init" then exPage1 else exPage2

/-- A document with no pagedata div. -/
def exPlainTags : List StartTag :=
  [{ tag := "div", attrs := [("id", "other")] }, { tag := "span", attrs := [] }]

/-- A page server answering every URL with `exPlainTags`. -/
def exPlainPageServer : String → Except String (List StartTag) :=
  fun _ => .ok exPlainTags

/-! The claims. -/

/-- Claim C4: for every item list and every redownload_urls mapping, the
join sets each item's `download_url` purely as the lookup of
`sale_item_type ++ sale_item_id` in the mapping, an absent key giving a
null `download_url`, and the join never fails: `map_download_urls` is
exactly the spec's per-item lookup map. -/
theorem claim_C4 (urls : List (String × String)) (albums : List Album) :
    map_download_urls urls albums = download_url_join_spec urls albums ∧
    (map_download_urls urls albums).map Album.download_url =
      albums.map fun a => urls.lookup (url_key a) := by
  have h : map_download_urls urls albums = download_url_join_spec urls albums := by
    induction albums with
    | nil => rfl
    | cons a rest ih =>
      unfold map_download_urls download_url_join_spec
      rw [List.map_cons]
      unfold download_url_join_spec at ih
      rw [ih]
  refine ⟨h, ?_⟩
  rw [h]
  unfold download_url_join_spec
  rw [List.map_map]
  rfl

/-- Claim C6: an HTML document containing no div with id `pagedata`
yields the empty mapping as payload with no error, and on that payload
the `fan_id` accessor yields 0 and the `last_token` accessor the empty
string. -/
theorem claim_C6 (decode : Option String → Except String Json)
    (tags : List StartTag)
    (h : ∀ t ∈ tags, ¬(t.tag = "div" ∧ attrsGet t.attrs "id" = some "pagedata")) :
    feedTags decode tags none = .ok none ∧
    dataProp none = .obj [] ∧
    fan_id none = some 0 ∧
    last_token none = some (.str "") :=
  ⟨feed_no_pagedata decode tags h none, rfl, rfl, rfl⟩

/-- Witness for C6 at a concrete document with no pagedata div. -/
theorem claim_C6_witness :
    feedTags exDecode exPlainTags none = .ok none ∧
    dataProp none = .obj [] ∧
    fan_id none = some 0 ∧
    last_token none = some (.str "") :=
  claim_C6 exDecode exPlainTags (by decide)

/-- Claim C10: when the download page has no pagedata div (payload is
the empty mapping), `parse_album` raises a `KeyError` on the missing
`digital_items` field instead of returning a default download URL. -/
theorem claim_C10 (pageServer : String → Except String (List StartTag))
    (decode : Option String → Except String Json) (a : Album) (u : String)
    (tags : List StartTag) (w : World)
    (h1 : a.download_url = some u) (h2 : pageServer u = .ok tags)
    (h3 : ∀ t ∈ tags, ¬(t.tag = "div" ∧ attrsGet t.attrs "id" = some "pagedata")) :
    (parse_album pageServer decode a w).1 = .error "KeyError: digital_items" := by
  unfold parse_album
  rw [h1]
  dsimp only
  rw [h2]
  dsimp only
  rw [feed_no_pagedata decode tags h3 none]
  rfl

/-- Witness for C10 at a concrete item and pagedata-free document. -/
theorem claim_C10_witness :
    (parse_album exPlainPageServer exDecode exAlbum exLockedWorld).1 =
      .error "KeyError: digital_items" :=
  claim_C10 exPlainPageServer exDecode exAlbum "u" exPlainTags exLockedWorld
    rfl rfl (by decide)

/-- Counterexample to claim C2 as stated: a record whose expiry is set
to 0, with current time 1, has a set expiry strictly below the current
time and yet IS present in the built store — Python's `if
cookie['expiry'] and ...` treats a zero expiry as unset. -/
theorem claim_C2_counterexample :
    toEntry exCookieZero ∈ parse_cookie_list 1 [exCookieZero] ∧
    (toEntry exCookieZero).expires = some 0 ∧ (0 : Int) < 1 := by
  refine ⟨?_, rfl, by decide⟩
  decide

/-- Claim C2 (amended): the store built by `parse_cookie_list` never
contains a record whose expiry is set to a NONZERO value strictly below
the current time (a zero expiry is falsy in Python and is kept); every
entry of the store is the untouched (name, value, domain, path, expiry)
of some kept input record; every kept record's (name, domain, path) key
is present; and a kept record that is not followed by a later kept
record with the same key is present with its original value (later
inserts overwrite earlier ones keyed by (name, domain, path)). -/
theorem claim_C2 (now : Int) (cs : List RawCookie) :
    (∀ e ∈ parse_cookie_list now cs, ∀ t, e.expires = some t → t ≠ 0 → ¬(t < now)) ∧
    (∀ e ∈ parse_cookie_list now cs,
      ∃ c ∈ cs, expirySkip now c = false ∧ e = toEntry c) ∧
    (∀ c ∈ cs, expirySkip now c = false →
      ∃ e ∈ parse_cookie_list now cs, cookieKey e = cookieKey (toEntry c)) ∧
    (∀ (l₁ : List RawCookie) (c : RawCookie) (l₂ : List RawCookie),
      cs = l₁ ++ c :: l₂ → expirySkip now c = false →
      (∀ c2 ∈ l₂, expirySkip now c2 = false →
        cookieKey (toEntry c2) ≠ cookieKey (toEntry c)) →
      toEntry c ∈ parse_cookie_list now cs) := by
  have hprov : ∀ e ∈ parse_cookie_list now cs,
      ∃ c ∈ cs, expirySkip now c = false ∧ e = toEntry c := by
    intro e he
    rw [parse_cookie_list_eq_foldl] at he
    rcases cookie_fold_provenance now cs [] e he with h | h
    · exact absurd h (List.not_mem_nil e)
    · exact h
  refine ⟨?_, hprov, ?_, ?_⟩
  · intro e he t ht htz hlt
    obtain ⟨c, -, hskip, rfl⟩ := hprov e he
    unfold expirySkip at hskip
    unfold toEntry at ht
    dsimp only at ht
    rw [ht] at hskip
    simp only [Bool.and_eq_false_iff, decide_eq_false_iff_not, not_not] at hskip
    rcases hskip with h | h
    · exact htz h
    · exact h hlt
  · intro c hc hskip
    obtain ⟨l₁, l₂, rfl⟩ := List.append_of_mem hc
    rw [parse_cookie_list_eq_foldl, List.foldl_append, List.foldl_cons]
    have hmem : toEntry c ∈ cookieStep now (l₁.foldl (cookieStep now) []) c := by
      unfold cookieStep
      rw [if_neg (by rw [hskip]; exact Bool.false_ne_true)]
      unfold jarSet
      rw [List.mem_append, List.mem_singleton]
      exact Or.inr rfl
    exact cookie_fold_key_stable now l₂ _ (toEntry c) hmem
  · intro l₁ c l₂ hcs hskip hlater
    subst hcs
    rw [parse_cookie_list_eq_foldl, List.foldl_append, List.foldl_cons]
    have hmem : toEntry c ∈ cookieStep now (l₁.foldl (cookieStep now) []) c := by
      unfold cookieStep
      rw [if_neg (by rw [hskip]; exact Bool.false_ne_true)]
      unfold jarSet
      rw [List.mem_append, List.mem_singleton]
      exact Or.inr rfl
    exact cookie_fold_survives now l₂ _ (toEntry c) hmem hlater

/-- Witness for C2: a never-expiring record is present with its key,
and, being last with its key, with its original value. -/
theorem claim_C2_witness :
    (∃ e ∈ parse_cookie_list 5 [exCookieZero],
      cookieKey e = cookieKey (toEntry exCookieZero)) ∧
    toEntry exCookieZero ∈ parse_cookie_list 5 [exCookieZero] := by
  refine ⟨(claim_C2 5 [exCookieZero]).2.2.1 exCookieZero (by decide) (by decide), ?_⟩
  exact (claim_C2 5 [exCookieZero]).2.2.2 [] exCookieZero [] rfl (by decide)
    (by intro c2 hc2; exact absurd hc2 (List.not_mem_nil c2))

/-- Claim C3: when the server serves a chain of synthetic pages ending
in an empty one (each cursor being the previous page's last item's
token), `get_collection` terminates within `ps.length` requests and
returns exactly the seed items followed by the joined items of all
pages in page order, with no reordering or deduplication. -/
theorem claim_C3 (server : Int → String → Page) (fanId : Int) :
    ∀ (ps : List Page) (t : String) (seed : List Album),
      serves server fanId t ps →
      get_collection server fanId ps.length t seed =
        some (seed ++ (ps.map pageItems).flatten) := by
  intro ps
  induction ps with
  | nil => intro t seed h; exact absurd h (by unfold serves; exact not_false)
  | cons p rest ih =>
    intro t seed h
    unfold serves at h
    obtain ⟨hsrv, hrest⟩ := h
    rw [List.length_cons]
    unfold get_collection
    rw [hsrv]
    dsimp only
    cases hl : (pageItems p).getLast? with
    | none =>
      rw [show map_download_urls p.redownload_urls p.items = pageItems p from rfl, hl]
      rw [hl] at hrest
      dsimp only at hrest
      subst hrest
      rw [List.getLast?_eq_none_iff] at hl
      rw [List.map_cons, List.map_nil, List.flatten_cons, List.flatten_nil, hl]
      dsimp only
      rw [List.append_nil, List.append_nil]
    | some lastItem =>
      rw [show map_download_urls p.redownload_urls p.items = pageItems p from rfl, hl]
      rw [hl] at hrest
      dsimp only at hrest
      dsimp only
      rw [ih lastItem.token (seed ++ pageItems p) hrest]
      rw [List.map_cons, List.flatten_cons, List.append_assoc]

/-- Witness for C3: the spec's end-to-end scenario — a first page with
two items (tokens `t1`, `t2`) and an empty second page served at cursor
`t2` — yields exactly those two items (with their download URLs
joined) in order. -/
theorem claim_C3_witness :
    get_collection exServer 42 2 "init" [] =
      some ([exPage1, exPage2].map pageItems).flatten := by
  have hserves : serves exServer 42 "init" [exPage1, exPage2] := by
    unfold serves
    refine ⟨rfl, ?_⟩
    rw [show (pageItems exPage1).getLast? =
      some { exItem2 with download_url := none } from by decide]
    exact ⟨rfl, by
      rw [show (pageItems exPage2).getLast? = none from by decide]⟩
  have h := claim_C3 exServer 42 [exPage1, exPage2] "init" [] hserves
  rw [show ([exPage1, exPage2] : List Page).length = 2 from rfl] at h
  rw [h]
  rw [List.nil_append]

/-- Counterexample to claim C5 as stated: a valid archive that itself
contains an entry named `1.zip` (the download file's own name).
`extractall` overwrites the downloaded zip, so the original zip is NOT
left in place under its original name — its content afterwards is the
extracted entry, not the original archive. -/
theorem claim_C5_counterexample :
    fsLookup exZipFs (download_path "Music" exAlbum) =
      some (.archive [("1.zip", "junk")]) ∧
    extract "Music" exAlbum exZipFs =
      .ok { dirs := [], files := [(download_path "Music" exAlbum, .raw "junk")] } ∧
    Bytes.raw "junk" ≠ Bytes.archive [("1.zip", "junk")] := by
  refine ⟨by decide, by rfl, by decide⟩

/-- Claim C5 (amended): for a downloaded file present at its path — if
it is a valid archive, `extract` succeeds, every archive entry is
present in the item directory (with the content of some equally named
entry), and the original zip is still in place under its original name
PROVIDED no archive entry is named like the zip file itself (such an
entry overwrites it); if it is not a valid archive, `extract` succeeds,
the file is renamed to `{item_title}.mp3` in the same directory, and
the zip no longer exists at its original name. No error is surfaced in
either case. -/
theorem claim_C5 (baseDir : String) (a : Album) (fs : FS) :
    (∀ entries, fsLookup fs (download_path baseDir a) = some (.archive entries) →
      ∃ fs2, extract baseDir a fs = .ok fs2 ∧
        (∀ nb ∈ entries, ∃ c,
          fsLookup fs2 (pjoin (download_dir_path baseDir a) nb.1) =
            some (Bytes.raw c) ∧ (nb.1, c) ∈ entries) ∧
        ((∀ nb ∈ entries,
            pjoin (download_dir_path baseDir a) nb.1 ≠ download_path baseDir a) →
          fsLookup fs2 (download_path baseDir a) = some (.archive entries))) ∧
    (∀ d, fsLookup fs (download_path baseDir a) = some (.raw d) →
      ∃ fs2, extract baseDir a fs = .ok fs2 ∧
        fsLookup fs2 (mp3_path baseDir a) = some (.raw d) ∧
        fsLookup fs2 (download_path baseDir a) = none) := by
  constructor
  · intro entries hz
    have hens : ensure_download_dir baseDir a fs = fs :=
      ensure_eq_of_file_under (n := toString a.item_id ++ ".zip")
        (fileExists_of_fsLookup hz)
    refine ⟨(entries.foldl (entryWrite (download_dir_path baseDir a)) fs), ?_, ?_, ?_⟩
    · unfold extract
      rw [hens]
      dsimp only
      rw [hz]
      rfl
    · intro nb hnb
      exact extract_fold_writes_mem (download_dir_path baseDir a) entries fs hnb
    · intro hnone
      rw [extract_fold_lookup_other (download_dir_path baseDir a) entries fs
        (download_path baseDir a) hnone]
      exact hz
  · intro d hz
    have hens : ensure_download_dir baseDir a fs = fs :=
      ensure_eq_of_file_under (n := toString a.item_id ++ ".zip")
        (fileExists_of_fsLookup hz)
    refine ⟨fsInsert (fsRemove fs (download_path baseDir a)) (mp3_path baseDir a)
      (.raw d), ?_, ?_, ?_⟩
    · unfold extract
      rw [hens]
      dsimp only
      rw [hz]
    · exact fsLookup_fsInsert_self _ _ _
    · rw [fsLookup_fsInsert_ne _ _ _ _
        (fun hh => mp3_path_ne_download_path baseDir a hh.symm)]
      exact fsLookup_fsRemove_self _ _

/-- Witness for C5 at a concrete raw (non-archive) download: the file
is renamed to `T.mp3` and the zip name is gone, with no error. -/
theorem claim_C5_witness :
    ∃ fs2, extract "Music" exAlbum exRawFs = .ok fs2 ∧
      fsLookup fs2 (mp3_path "Music" exAlbum) = some (.raw "audio") ∧
      fsLookup fs2 (download_path "Music" exAlbum) = none :=
  (claim_C5 "Music" exAlbum exRawFs).2 "audio" (by decide)

/-- Counterexample to claim C1 as stated: processing an item whose lock
marker already exists still performs ONE network call, because
`__main__` runs `parse_album()` (which GETs the item's download page)
before `fetch_album()` ever checks the lock. The filesystem is
unchanged and the skip notice is emitted, but the network trace is not
empty. -/
theorem claim_C1_counterexample :
    fileExists exLockedWorld.fs (lock_path "Music" exAlbum) = true ∧
    (process_item exPageServer exFileServer exDecode "Music" exAlbum
        exLockedWorld).2.net = ["u"] ∧
    (process_item exPageServer exFileServer exDecode "Music" exAlbum
        exLockedWorld).2.out = [skipMsg exAlbum] ∧
    (process_item exPageServer exFileServer exDecode "Music" exAlbum
        exLockedWorld).2.fs = exLockedWorld.fs := by
  refine ⟨by decide, by rfl, by rfl, by rfl⟩

/-- Claim C1 (amended): for an item whose lock marker exists, the fetch
operation proper (`fetch_album`) performs zero network calls, leaves
the filesystem unchanged, and emits the skip notice; the enclosing
per-item loop however still performs one network call per item, since
it resolves the download URL (`parse_album`) before the lock check. -/
theorem claim_C1 (fileServer : String → Except String Bytes) (baseDir : String)
    (a : Album) (durl : Option Json) (w : World)
    (h : fileExists w.fs (lock_path baseDir a) = true) :
    fetch_album fileServer baseDir a durl w =
      (.ok (), { w with out := w.out ++ [skipMsg a] }) := by
  have hens : ensure_download_dir baseDir a w.fs = w.fs :=
    ensure_eq_of_file_under (n := "." ++ toString a.item_id ++ ".lock") h
  unfold fetch_album
  rw [hens]
  dsimp only
  rw [if_pos h]

/-- Witness for C1 at the concrete locked world. -/
theorem claim_C1_witness :
    fetch_album exFileServer "Music" exAlbum none exLockedWorld =
      (.ok (), { exLockedWorld with out := [skipMsg exAlbum] }) := by
  have h := claim_C1 exFileServer "Music" exAlbum none exLockedWorld (by decide)
  simpa using h

/-- Counterexample to claim C7 as stated: the persisted cache yields a
store that CONTAINS both a `client_id` cookie (value `""`) and an
`identity` cookie, yet `bandcamp_login` still drives a browser login —
line 176 tests Python truthiness of the VALUES, and the empty string is
falsy. -/
theorem claim_C7_counterexample :
    jarGet (parse_cookie_list 0 exCookieRecords) "client_id" = some "" ∧
    jarGet (parse_cookie_list 0 exCookieRecords) "identity" = some "x" ∧
    exLoginWorld.cookieFile = some exCookieRecords ∧
    (bandcamp_login 0 (.ok []) exLoginWorld).2.browserEvents =
      ["acquire", "quit"] := by
  refine ⟨by decide, by decide, rfl, by decide⟩

/-- Claim C7 (amended): if the auth cache exists and the store built
from it contains a `client_id` and an `identity` cookie both with
non-empty (truthy) values — the condition packaged in `cached_jar` —
then `authenticate` returns that store with the world untouched (no
browser login, no cache write); otherwise a browser login is driven
(acquire then quit) and, when it succeeds, its raw cookie list
overwrites the auth cache and the store built from it is returned. -/
theorem claim_C7 (now : Int) (oracle : Except String (List RawCookie))
    (w : LoginWorld) :
    (∀ jar, cached_jar now w = some jar →
      bandcamp_login now oracle w = (.ok jar, w)) ∧
    (cached_jar now w = none → ∀ cookies, oracle = .ok cookies →
      bandcamp_login now oracle w =
        (.ok (parse_cookie_list now cookies),
          { cookieFile := some cookies,
            browserEvents := w.browserEvents ++ ["acquire", "quit"] })) := by
  constructor
  · intro jar hj
    unfold bandcamp_login
    rw [hj]
  · intro hn cookies hok
    unfold bandcamp_login
    rw [hn, hok]
    dsimp only
    rw [List.append_assoc]
    rfl

/-- Witness for C7: with no cache present and a successful browser
login, the cache is overwritten with the obtained raw cookie list. -/
theorem claim_C7_witness :
    bandcamp_login 0 (.ok exCookieRecords) exNoCacheWorld =
      (.ok (parse_cookie_list 0 exCookieRecords),
        { cookieFile := some exCookieRecords,
          browserEvents := ["acquire", "quit"] }) := by
  have h := (claim_C7 0 (.ok exCookieRecords) exNoCacheWorld).2 (by decide)
    exCookieRecords rfl
  simpa using h

/-- Claim C9: the browser resource is released on every path of
`authenticate`: the event trace either is untouched (cached-session
path, no browser acquired) or gains exactly an acquire immediately
followed by a quit; every failing outcome still ends with the quit, and
whenever the login flow is entered at all (no usable cached session)
the quit is recorded, success or failure. -/
theorem claim_C9 (now : Int) (oracle : Except String (List RawCookie))
    (w : LoginWorld) :
    ((bandcamp_login now oracle w).2.browserEvents = w.browserEvents ∨
      (bandcamp_login now oracle w).2.browserEvents =
        w.browserEvents ++ ["acquire", "quit"]) ∧
    (∀ e, (bandcamp_login now oracle w).1 = .error e →
      (bandcamp_login now oracle w).2.browserEvents =
        w.browserEvents ++ ["acquire", "quit"]) ∧
    (cached_jar now w = none →
      (bandcamp_login now oracle w).2.browserEvents =
        w.browserEvents ++ ["acquire", "quit"]) := by
  unfold bandcamp_login
  cases hc : cached_jar now w with
  | some jar =>
    refine ⟨Or.inl rfl, ?_, ?_⟩
    · intro e he
      exact absurd he (by simp)
    · intro hn
      exact Option.noConfusion hn
  | none =>
    cases oracle with
    | error e =>
      refine ⟨Or.inr ?_, fun e2 _ => ?_, fun _ => ?_⟩ <;>
        (dsimp only; rw [List.append_assoc]; rfl)
    | ok cookies =>
      refine ⟨Or.inr ?_, fun e2 he2 => ?_, fun _ => ?_⟩
      · dsimp only
        rw [List.append_assoc]
        rfl
      · exact absurd he2 (by simp)
      · dsimp only
        rw [List.append_assoc]
        rfl

/-- Witness for C9: a login timeout (failing oracle) still records the
browser quit after the acquire. -/
theorem claim_C9_witness :
    (bandcamp_login 0 (.error "TimeoutException") exNoCacheWorld).2.browserEvents
      = ["acquire", "quit"] := by
  have h := (claim_C9 0 (.error "TimeoutException") exNoCacheWorld).2.1
    "TimeoutException" rfl
  simpa using h

theorem fileExists_after_download_write (baseDir : String) (a : Album)
    (fs : FS) (b : Bytes) :
    fileExists (fsInsert (ensure_download_dir baseDir a fs)
        (download_path baseDir a) b) (lock_path baseDir a) =
      fileExists fs (lock_path baseDir a) := by
  rw [fileExists_fsInsert_ne _ _ _ _
    (fun hh => download_path_ne_lock_path baseDir a hh.symm), fileExists_ensure]

/-- On an unlocked item, `fetch_album` creates the lock marker exactly
when it returns successfully (after the download request and the
extraction); every failing outcome leaves the item without a lock
marker. -/
theorem fetch_album_unlocked (fileServer : String → Except String Bytes)
    (baseDir : String) (a : Album) (durl : Option Json) (w : World)
    (h : fileExists w.fs (lock_path baseDir a) = false) :
    (∀ e, (fetch_album fileServer baseDir a durl w).1 = .error e →
      fileExists (fetch_album fileServer baseDir a durl w).2.fs
        (lock_path baseDir a) = false) ∧
    ((fetch_album fileServer baseDir a durl w).1 = .ok () →
      fileExists (fetch_album fileServer baseDir a durl w).2.fs
        (lock_path baseDir a) = true ∧
      ∃ v, (fetch_album fileServer baseDir a durl w).2.net = w.net ++ [v]) := by
  unfold fetch_album
  dsimp only
  rw [fileExists_ensure, h, if_neg Bool.false_ne_true]
  unfold download
  dsimp only
  cases hdl : durl with
  | none =>
    dsimp only
    refine ⟨fun e he => ?_, fun hok => absurd hok (by simp)⟩
    rw [fileExists_after_download_write, fileExists_ensure]
    exact h
  | some j =>
    cases j with
    | str s =>
      dsimp only
      cases hfsv : fileServer s with
      | error e =>
        dsimp only
        refine ⟨fun e2 he2 => ?_, fun hok => absurd hok (by simp)⟩
        rw [fileExists_after_download_write, fileExists_ensure]
        exact h
      | ok b =>
        dsimp only
        have hlook : fsLookup
            (fsInsert (fsInsert (ensure_download_dir baseDir a
                (ensure_download_dir baseDir a w.fs))
              (download_path baseDir a) (.raw ""))
              (download_path baseDir a) b)
            (download_path baseDir a) = some b := fsLookup_fsInsert_self _ _ _
        have hens3 := ensure_eq_of_file_under
          (n := toString a.item_id ++ ".zip") (fileExists_of_fsLookup hlook)
        cases b with
        | archive entries =>
          rw [show extract baseDir a (fsInsert (fsInsert (ensure_download_dir
              baseDir a (ensure_download_dir baseDir a w.fs))
              (download_path baseDir a) (.raw ""))
              (download_path baseDir a) (.archive entries)) = .ok
              (entries.foldl (entryWrite (download_dir_path baseDir a))
                (fsInsert (fsInsert (ensure_download_dir baseDir a
                  (ensure_download_dir baseDir a w.fs))
                  (download_path baseDir a) (.raw ""))
                  (download_path baseDir a) (.archive entries))) from by
            unfold extract
            rw [hens3]
            dsimp only
            rw [hlook]
            rfl]
          dsimp only
          refine ⟨fun e2 he2 => absurd he2 (by simp), fun _ => ⟨?_, s, rfl⟩⟩
          unfold lock
          exact fileExists_fsInsert_self _ _ _
        | raw d =>
          rw [show extract baseDir a (fsInsert (fsInsert (ensure_download_dir
              baseDir a (ensure_download_dir baseDir a w.fs))
              (download_path baseDir a) (.raw ""))
              (download_path baseDir a) (.raw d)) = .ok
              (fsInsert (fsRemove (fsInsert (fsInsert (ensure_download_dir
                baseDir a (ensure_download_dir baseDir a w.fs))
                (download_path baseDir a) (.raw ""))
                (download_path baseDir a) (.raw d)) (download_path baseDir a))
                (mp3_path baseDir a) (.raw d)) from by
            unfold extract
            rw [hens3]
            dsimp only
            rw [hlook]]
          dsimp only
          refine ⟨fun e2 he2 => absurd he2 (by simp), fun _ => ⟨?_, s, rfl⟩⟩
          unfold lock
          exact fileExists_fsInsert_self _ _ _
    | null =>
      dsimp only
      refine ⟨fun e he => ?_, fun hok => absurd hok (by simp)⟩
      rw [fileExists_after_download_write, fileExists_ensure]
      exact h
    | bool b =>
      dsimp only
      refine ⟨fun e he => ?_, fun hok => absurd hok (by simp)⟩
      rw [fileExists_after_download_write, fileExists_ensure]
      exact h
    | num n =>
      dsimp only
      refine ⟨fun e he => ?_, fun hok => absurd hok (by simp)⟩
      rw [fileExists_after_download_write, fileExists_ensure]
      exact h
    | arr l =>
      dsimp only
      refine ⟨fun e he => ?_, fun hok => absurd hok (by simp)⟩
      rw [fileExists_after_download_write, fileExists_ensure]
      exact h
    | obj fl =>
      dsimp only
      refine ⟨fun e he => ?_, fun hok => absurd hok (by simp)⟩
      rw [fileExists_after_download_write, fileExists_ensure]
      exact h

/-- The `parse_album` step never touches the filesystem. -/
theorem parse_album_fs (pageServer : String → Except String (List StartTag))
    (decode : Option String → Except String Json) (a : Album) (w : World) :
    (parse_album pageServer decode a w).2.fs = w.fs := by
  unfold parse_album
  cases hdu : a.download_url with
  | none => rfl
  | some u =>
    dsimp only
    cases pageServer u with
    | error e => rfl
    | ok tags =>
      dsimp only
      cases feedTags decode tags none with
      | error e => rfl
      | ok blob =>
        dsimp only
        cases pyIndex (dataProp blob) "digital_items" with
        | error e => rfl
        | ok items =>
          dsimp only
          cases iterElems items with
          | error e => rfl
          | ok ds =>
            dsimp only
            cases digital_items_fold ds none with
            | error e => rfl
            | ok durl => rfl

/-- A successful `parse_album` performed exactly one GET, of the item's
`download_url` page. -/
theorem parse_album_ok_world (pageServer : String → Except String (List StartTag))
    (decode : Option String → Except String Json) (a : Album) (w : World)
    (durl : Option Json)
    (hok : (parse_album pageServer decode a w).1 = .ok durl) :
    ∃ u, a.download_url = some u ∧
      (parse_album pageServer decode a w).2 = { w with net := w.net ++ [u] } := by
  unfold parse_album at hok ⊢
  cases hdu : a.download_url with
  | none =>
    rw [hdu] at hok
    exact absurd hok (by simp)
  | some u =>
    refine ⟨u, rfl, ?_⟩
    dsimp only
    cases pageServer u with
    | error e => rfl
    | ok tags =>
      dsimp only
      cases feedTags decode tags none with
      | error e => rfl
      | ok blob =>
        dsimp only
        cases pyIndex (dataProp blob) "digital_items" with
        | error e => rfl
        | ok items =>
          dsimp only
          cases iterElems items with
          | error e => rfl
          | ok ds =>
            dsimp only
            cases digital_items_fold ds none with
            | error e => rfl
            | ok durl2 => rfl

/-- Claim C8: the lock marker is created only after both the download
and the extraction completed. Starting from a state without the lock
marker, any failure during resolve (`parse_album`), download or extract
leaves the item without a lock marker (so a later run redownloads it),
while a successful run ends with the lock marker present and exactly
the two network requests (page resolve, then file download) performed
before it. -/
theorem claim_C8 (pageServer : String → Except String (List StartTag))
    (fileServer : String → Except String Bytes)
    (decode : Option String → Except String Json)
    (baseDir : String) (a : Album) (w : World)
    (h : fileExists w.fs (lock_path baseDir a) = false) :
    (∀ e, (process_item pageServer fileServer decode baseDir a w).1 = .error e →
      fileExists (process_item pageServer fileServer decode baseDir a w).2.fs
        (lock_path baseDir a) = false) ∧
    ((process_item pageServer fileServer decode baseDir a w).1 = .ok () →
      fileExists (process_item pageServer fileServer decode baseDir a w).2.fs
        (lock_path baseDir a) = true ∧
      ∃ u v, (process_item pageServer fileServer decode baseDir a w).2.net =
        w.net ++ [u, v]) := by
  unfold process_item
  rcases hp : parse_album pageServer decode a w with ⟨r, w1⟩
  have hw1fs : w1.fs = w.fs := by
    have := parse_album_fs pageServer decode a w
    rw [hp] at this
    exact this
  cases r with
  | error e =>
    dsimp only
    refine ⟨fun e2 he2 => ?_, fun hok => absurd hok (by simp)⟩
    rw [hw1fs]
    exact h
  | ok durl =>
    dsimp only
    have h1 : fileExists w1.fs (lock_path baseDir a) = false := by
      rw [hw1fs]; exact h
    obtain ⟨herr, hok⟩ := fetch_album_unlocked fileServer baseDir a durl w1 h1
    refine ⟨herr, fun hfin => ?_⟩
    obtain ⟨hlock, v, hnet⟩ := hok hfin
    refine ⟨hlock, ?_⟩
    obtain ⟨u, -, hw1⟩ := parse_album_ok_world pageServer decode a w durl
      (by rw [hp])
    rw [hp] at hw1
    refine ⟨u, v, ?_⟩
    rw [hnet]
    have hw1b : w1 = { fs := w.fs, net := w.net ++ [u], out := w.out } := hw1
    rw [hw1b]
    dsimp only
    rw [List.append_assoc]
    rfl

/-- Witness for C8: a failing file download (network error) on an
unlocked item leaves the item without a lock marker. -/
theorem claim_C8_witness :
    fileExists (process_item exPageServer (fun _ => .error "ConnectionError")
        exDecode "Music" exAlbum
        { fs := { dirs := [], files := [] }, net := [], out := [] }).2.fs
      (lock_path "Music" exAlbum) = false :=
  (claim_C8 exPageServer (fun _ => .error "ConnectionError") exDecode "Music"
      exAlbum { fs := { dirs := [], files := [] }, net := [], out := [] }
      (by decide)).1 "TypeError: invalid url" rfl

end Bandcamp
